import Mathlib

/-!
Shallow embedding of the LJSpeech batch-assembly pipeline
(`datasets/LJSpeech.py`): length-based sorting of the example table
(`_sort_frames`), waveform loading (`load_wav`) and the batch collation
function (`collate_fn`), together with the helpers the module imports
(`prepare_data`, `pad_per_step`, `AudioProcessor.spectrogram` /
`melspectrogram`), which are modelled from the specification since their
sources are not part of this repository snapshot.

Waveform samples are modelled as rationals, symbol sequences as integers
(the source stores them as `np.int32`; the wrap of `astype(np.int32)` is
modelled explicitly by `int32wrap`).
-/

/-- Configuration consumed by `collate_fn` and the spectral frontend.
Only the fields the embedded code paths read are kept: `outputs_per_step`
(decoder frame multiple), the two bin counts fixing the first spectrogram
axis, and the hop length (derived in the source from `frame_shift_ms` and
`sample_rate`) fixing the frame count. The remaining numeric
configuration (pre-emphasis, reference dB, power, ...) only affects
magnitude values, which the frontend model abstracts. -/
structure Config where
  outputs_per_step : Nat
  num_freq : Nat
  num_mels : Nat
  hop_length : Nat
deriving DecidableEq

/-- One element of the dictionary produced by `__getitem__`:
`{'text': ..., 'wav': ..., 'item_idx': ...}`. -/
structure Sample where
  text : List Int
  wav : List Rat
  item_idx : String
deriving DecidableEq

/-- An element of the list handed to `collate_fn`. The source checks
`isinstance(batch[0], collections.Mapping)`; a mapping-like element is a
`Sample`, anything else is kept abstract as the name of its Python type
(what `type(batch[0])` would render). -/
inductive BatchItem where
  | mapping (s : Sample)
  | other (tyName : String)
deriving DecidableEq

/-- Failure modes of the embedded paths. `indexError` is Python's
`IndexError` from `batch[0]` on an empty list; `typeError` is the
`TypeError` raised for a non-mapping element, carrying the element's type
name; `assertionError` is the `assert mel.shape[2] == linear.shape[2]`.
`emptyBatchError` is the error named by the specification for empty
input; the source defines no such error, and the constructor exists so
that statements about it can be made. -/
inductive CollateError where
  | indexError
  | typeError (tyName : String)
  | assertionError
  | emptyBatchError
deriving DecidableEq

/-- The tuple returned by `collate_fn`:
`(text, text_lenghts, linear, mel, item_idxs[0])` (the field spelling
`text_lenghts` follows the source). -/
structure CollateOut where
  text : List (List Int)
  text_lenghts : List Nat
  linear : List (List (List Rat))
  mel : List (List (List Rat))
  item_idx : String
deriving DecidableEq

/-- Width used by `prepare_data`: the maximum length over the input
sequences (0 for an empty input list, a case the pipeline never
produces). -/
def maxLenOf (xs : List (List α)) : Nat :=
  xs.foldl (fun a x => max a x.length) 0

/-- Modelled from the spec: `prepare_data` (imported from
`TTS.utils.data`, not under this snapshot) is the SequencePadder of
section 4.3: matrix width is the maximum length across the input
sequences, and each row holds the original sequence followed by the fill
value repeated to reach that width. -/
def prepare_data (xs : List (List α)) (fill : α) : List (List α) :=
  xs.map (fun x => x ++ List.replicate (maxLenOf xs - x.length) fill)

/-- Modelled from the spec: the `pad(sequences, fill)` contract of
SequencePadder (section 4.3) returns the padded matrix together with the
original per-sequence lengths. -/
def SequencePadder.pad (xs : List (List α)) (fill : α) :
    List (List α) × List Nat :=
  (prepare_data xs fill, xs.map List.length)

/-- Modelled from the spec: `pad_per_step` (imported from
`TTS.utils.data`, not under this snapshot) pads the time (last) axis of a
batch-first spectrogram stack by `padLen` entries with the configured pad
value 0 (section 4.5 step 4). -/
def pad_per_step (x : List (List (List Rat))) (padLen : Nat) :
    List (List (List Rat)) :=
  x.map (fun m => m.map (fun row => row ++ List.replicate padLen 0))

/-- The wrap applied by `astype(np.int32)` on the padded symbol matrix. -/
def int32wrap (v : Int) : Int :=
  (v + 2 ^ 31) % 2 ^ 32 - 2 ^ 31

/-- Shared frame count of the short-time transform for an input of `n`
samples (librosa's centered framing: `1 + n // hop`). Both spectrogram
variants derive their time axis from this one function. -/
def numFrames (cfg : Config) (n : Nat) : Nat :=
  n / cfg.hop_length + 1

/-- One magnitude cell of the modelled transform; a deterministic
function of the waveform so that value-level statements (determinism,
transposition) are meaningful. -/
def specCell (w : List Rat) (hop k t : Nat) : Rat :=
  w.getD (t * hop + k) 0

/-- Modelled from the spec: `AudioProcessor.spectrogram` (imported from
`TTS.utils.audio`, not under this snapshot), section 4.4: a 2D array of
shape `[num_freq × time]` whose time axis is the shared frame count. The
windowed-transform numerics (pre-emphasis, dB normalization, clipping)
are configuration-dependent magnitudes abstracted by `specCell`; the
shape contract is modelled exactly. -/
def spectrogram (cfg : Config) (w : List Rat) : List (List Rat) :=
  (List.range cfg.num_freq).map (fun k =>
    (List.range (numFrames cfg w.length)).map (fun t =>
      specCell w cfg.hop_length k t))

/-- Modelled from the spec: `AudioProcessor.melspectrogram`, section 4.4:
shape `[num_mels × time]`, time axis from the same shared frame count as
`spectrogram`. -/
def melspectrogram (cfg : Config) (w : List Rat) : List (List Rat) :=
  (List.range cfg.num_mels).map (fun k =>
    (List.range (numFrames cfg w.length)).map (fun t =>
      specCell w cfg.hop_length k t))

/-- `load_wav`: delegates to the audio collaborator (`librosa.core.load`,
abstracted as the `decode` argument). On a decoding failure (the caught
`RuntimeError`) the source prints a message and falls off the end of the
function, i.e. returns `None`; the embedding returns `none`. -/
def load_wav (decode : String → Except Unit (List Rat × Nat))
    (filename : String) : Option (List Rat × Nat) :=
  match decode filename with
  | Except.ok audio => some audio
  | Except.error _ => none

/-- Transcript lengths of the example table: `ins[1]` is the second
`|`-separated field of a manifest line, so its length is
`len(ins[1])`. -/
def frameLengths (frames : List (List String)) : List Nat :=
  frames.map (fun ins => (ins.getD 1 "").length)

/-- The documented contract of `np.argsort` on `lengths` (default
`kind='quicksort'`): the returned index list is a permutation of
`range(len(lengths))` along which the keys are non-decreasing. The
default sort kind is not documented to be stable, so no tie-break
property is part of the contract. -/
def argsortSpec (l : List Nat) (idxs : List Nat) : Prop :=
  idxs.Perm (List.range l.length) ∧
    List.Pairwise (· ≤ ·) (idxs.map (fun i => l.getD i 0))

/-- The reindexing loop of `_sort_frames`:
`new_frames[i] = frames[idx]` for `i, idx in enumerate(idxs)`. -/
def applySort (frames : List (List String)) (idxs : List Nat) :
    List (List String) :=
  idxs.map (fun i => frames.getD i [])

/-- Stability of an index list produced for keys `l`: positions holding
equal keys appear in increasing original order. -/
@[reducible] def StableFor (l : List Nat) (idxs : List Nat) : Prop :=
  ∀ i j : Fin idxs.length, i < j →
    l.getD (idxs.get i) 0 = l.getD (idxs.get j) 0 →
      idxs.get i < idxs.get j

/-- Left-to-right extraction of the mapping elements of a batch, as the
comprehensions `[d['wav'] for d in batch]` (etc.) perform: the first
non-mapping element raises a `TypeError` carrying its type name. -/
def extractSamples : List BatchItem → Except CollateError (List Sample)
  | [] => Except.ok []
  | BatchItem.mapping s :: rest =>
      match extractSamples rest with
      | Except.ok ss => Except.ok (s :: ss)
      | Except.error e => Except.error e
  | BatchItem.other ty :: _ => Except.error (CollateError.typeError ty)

def textsOf (samples : List Sample) : List (List Int) :=
  samples.map Sample.text

def wavsOf (samples : List Sample) : List (List Rat) :=
  samples.map Sample.wav

/-- Batch-first stack of linear spectrograms of the padded waveforms
(`linear = np.array([self.ap.spectrogram(w) ... for w in wav])` after
`wav = prepare_data(wav)`). -/
def linearStack (cfg : Config) (samples : List Sample) :
    List (List (List Rat)) :=
  (prepare_data (wavsOf samples) 0).map (spectrogram cfg)

/-- Batch-first stack of mel spectrograms of the padded waveforms. -/
def melStack (cfg : Config) (samples : List Sample) :
    List (List (List Rat)) :=
  (prepare_data (wavsOf samples) 0).map (melspectrogram cfg)

/-- `shape[2]` of a well-formed (rectangular, as all stacks built here
are) batch-first stack `[batch × bins × time]`. -/
def shape2 (x : List (List (List Rat))) : Nat :=
  ((x.headD []).headD []).length

/-- The step-pad length computed inline by `collate_fn` (lines 97-103):
`pad_len = outputs_per_step - ((timesteps + 1) % outputs_per_step)` plus
one when the remainder is nonzero, else 1. -/
def padLenFn (r timesteps : Nat) : Nat :=
  if (timesteps + 1) % r ≠ 0 then r - (timesteps + 1) % r + 1 else 1

/-- `timesteps = mel.shape[2]`. -/
def timestepsOf (cfg : Config) (samples : List Sample) : Nat :=
  shape2 (melStack cfg samples)

def padLenOf (cfg : Config) (samples : List Sample) : Nat :=
  padLenFn cfg.outputs_per_step (timestepsOf cfg samples)

/-- `linear = pad_per_step(linear, pad_len)`. -/
def stepLinear (cfg : Config) (samples : List Sample) :
    List (List (List Rat)) :=
  pad_per_step (linearStack cfg samples) (padLenOf cfg samples)

/-- `mel = pad_per_step(mel, pad_len)`. -/
def stepMel (cfg : Config) (samples : List Sample) :
    List (List (List Rat)) :=
  pad_per_step (melStack cfg samples) (padLenOf cfg samples)

/-- `transpose(0, 2, 1)` of one matrix of the stack: on a rectangular
`[bins × time]` matrix this yields `[time × bins]`. The time extent is
the length of the first row, as numpy's shape metadata records for a
rectangular array. -/
def transpose2d (m : List (List Rat)) : List (List Rat) :=
  (List.range (m.headD []).length).map (fun t =>
    m.map (fun row => row.getD t 0))

def transpose021 (x : List (List (List Rat))) : List (List (List Rat)) :=
  x.map transpose2d

/-- The body of `collate_fn` once every element is known to be
mapping-like: pad text and waveforms, extract spectral stacks, assert
equal time extents, step-pad, transpose, and return the batch tuple. -/
def collate_core (cfg : Config) (samples : List Sample) :
    Except CollateError CollateOut :=
  if shape2 (melStack cfg samples) = shape2 (linearStack cfg samples) then
    Except.ok
      { text := (prepare_data (textsOf samples) 0).map (List.map int32wrap)
        text_lenghts := (textsOf samples).map List.length
        linear := transpose021 (stepLinear cfg samples)
        mel := transpose021 (stepMel cfg samples)
        item_idx := (samples.map Sample.item_idx).headD "" }
  else Except.error CollateError.assertionError

/-- `collate_fn`: `batch[0]` raises `IndexError` on an empty list; a
non-mapping first element raises `TypeError` with its type name;
otherwise the elements are extracted and collated. -/
def collate_fn (cfg : Config) (batch : List BatchItem) :
    Except CollateError CollateOut :=
  match batch.head? with
  | none => Except.error CollateError.indexError
  | some (BatchItem.other ty) => Except.error (CollateError.typeError ty)
  | some (BatchItem.mapping _) =>
      match extractSamples batch with
      | Except.error e => Except.error e
      | Except.ok samples => collate_core cfg samples

/-- Time extent of one `[bins × time]` spectrogram. -/
def timeDim (m : List (List Rat)) : Nat :=
  (m.headD []).length

/-- Time extent of a batch-first `[batch × time × bins]` output stack. -/
def timeDim3 (x : List (List (List Rat))) : Nat :=
  (x.headD []).length

/-- Element access into a 3D stack with default 0. -/
def get3 (x : List (List (List Rat))) (a b c : Nat) : Rat :=
  (((x.getD a []).getD b []).getD c 0)

/-! ### Arithmetic of the step-pad length -/

theorem padLenFn_pos (r t : Nat) : 1 ≤ padLenFn r t := by
  unfold padLenFn; split <;> omega

theorem padLenFn_le (r t : Nat) (hr : 1 ≤ r) : padLenFn r t ≤ r := by
  unfold padLenFn
  split
  · have hm : (t + 1) % r < r := Nat.mod_lt (t + 1) (by omega)
    omega
  · omega

theorem padLenFn_mod (r t : Nat) (hr : 1 ≤ r) :
    (t + padLenFn r t) % r = 0 := by
  unfold padLenFn
  by_cases h : (t + 1) % r = 0
  · simp [h]
  · simp only [h, ne_eq, not_false_eq_true, if_true]
    have hd := Nat.div_add_mod (t + 1) r
    have hm : (t + 1) % r < r := Nat.mod_lt (t + 1) (by omega)
    have he : t + (r - (t + 1) % r + 1) = r * ((t + 1) / r) + r := by omega
    rw [he, Nat.mul_add_mod, Nat.mod_self]

/-! ### Claims settled by direct evaluation of `collate_fn` -/

/-- C10: for every `timesteps >= 0` and `outputs_per_step >= 1`, the step
pad length satisfies `1 <= pad_len <= outputs_per_step`, so the batch
time dimension grows by at least one and at most `outputs_per_step`
frames. -/
theorem C10_pad_len_bounds (r t : Nat) (hr : 1 ≤ r) :
    1 ≤ padLenFn r t ∧ padLenFn r t ≤ r :=
  ⟨padLenFn_pos r t, padLenFn_le r t hr⟩

theorem C10_witness :
    1 ≤ 5 ∧ (1 ≤ padLenFn 5 7 ∧ padLenFn 5 7 ≤ 5) :=
  ⟨by decide, C10_pad_len_bounds 5 7 (by decide)⟩

/-- C9: a non-empty batch whose first element is not mapping-like makes
`collate_fn` raise a `TypeError` naming the offending element's type,
and no batch is produced. -/
theorem C9_non_mapping_type_error (cfg : Config) (ty : String)
    (rest : List BatchItem) :
    collate_fn cfg (BatchItem.other ty :: rest) =
      Except.error (CollateError.typeError ty) := rfl

/-- C3 counterexample: on the empty list, `collate_fn` indexes
`batch[0]` and raises `IndexError`; it does not fail with the
specification's `EmptyBatchError`. -/
theorem C3_counterexample :
    collate_fn { outputs_per_step := 1, num_freq := 1, num_mels := 1,
                 hop_length := 1 } [] ≠
      Except.error CollateError.emptyBatchError := by
  simp [collate_fn]

/-- C3 (amended): on an empty example list, `collate_fn` fails with
`IndexError` (from evaluating `batch[0]`) and returns no partial
batch. -/
theorem C3_empty_raises_index_error (cfg : Config) :
    collate_fn cfg [] = Except.error CollateError.indexError := rfl

/-- C7: `collate_fn` is deterministic — the embedding is a pure function
of the configuration and the batch, so re-running it on the same input
yields identical output. -/
theorem C7_deterministic (cfg : Config) (batch : List BatchItem) :
    collate_fn cfg batch = collate_fn cfg batch := rfl

/-- C4: at a resource whose decode fails, `load_wav` returns `none`
(Python `None`) after printing, silently substituting missing data
instead of reporting an `AudioLoadError` with the resource identifier;
the code contradicts the documented contract. -/
theorem C4_load_wav_silent_none :
    load_wav (fun _ => Except.error ()) "wavs/LJ001-0001.wav" = none := rfl

/-! ### Sorting of the example table (`_sort_frames`) -/

theorem map_getD_range (l : List α) (d : α) :
    (List.range l.length).map (fun i => l.getD i d) = l := by
  apply List.ext_getElem
  · simp
  · intro i h1 h2
    simp [List.getD_eq_getElem?_getD, List.getElem?_eq_getElem h2]

theorem getD_frameLengths (frames : List (List String)) (i : Nat) :
    (frameLengths frames).getD i 0 =
      ((frames.getD i []).getD 1 "").length := by
  simp only [frameLengths, List.getD_eq_getElem?_getD, List.getElem?_map]
  cases h : frames[i]? <;> simp

/-- C2 counterexample: on the table `[["a","x"], ["b","y"]]` (two
transcripts of equal length 1), the index list `[1, 0]` satisfies the
documented contract of `np.argsort` with its default unstable
`quicksort`, yet reverses the two equal-length rows, so `_sort_frames`
does not guarantee a stable sort. -/
theorem C2_counterexample :
    argsortSpec (frameLengths [["a", "x"], ["b", "y"]]) [1, 0] ∧
      applySort [["a", "x"], ["b", "y"]] [1, 0] = [["b", "y"], ["a", "x"]] ∧
      ¬ StableFor (frameLengths [["a", "x"], ["b", "y"]]) [1, 0] := by
  refine ⟨⟨by decide, by decide⟩, by decide, by decide⟩

/-- C2 (amended): for every example table and every index list
satisfying the documented `np.argsort` contract, `_sort_frames` produces
a permutation of the table sorted non-decreasing by transcript length;
stability across equal lengths is not guaranteed, since the source uses
the default unstable sort kind. -/
theorem C2_sorted_permutation (frames : List (List String)) (idxs : List Nat)
    (h : argsortSpec (frameLengths frames) idxs) :
    (applySort frames idxs).Perm frames ∧
      List.Pairwise (· ≤ ·)
        ((applySort frames idxs).map (fun ins => (ins.getD 1 "").length)) := by
  obtain ⟨hperm, hsort⟩ := h
  constructor
  · have h1 : (applySort frames idxs).Perm
        ((List.range frames.length).map (fun i => frames.getD i [])) := by
      have h2 : List.range (frameLengths frames).length =
          List.range frames.length := by
        simp [frameLengths]
      exact List.Perm.map _ (h2 ▸ hperm)
    rw [map_getD_range] at h1
    exact h1
  · have he : (applySort frames idxs).map (fun ins => (ins.getD 1 "").length)
        = idxs.map (fun i => (frameLengths frames).getD i 0) := by
      simp only [applySort, List.map_map]
      apply List.map_congr_left
      intro i _
      exact (getD_frameLengths frames i).symm
    rw [he]
    exact hsort

theorem C2_witness :
    argsortSpec (frameLengths [["b", "xyz"], ["a", "x"]]) [1, 0] ∧
      ((applySort [["b", "xyz"], ["a", "x"]] [1, 0]).Perm
          [["b", "xyz"], ["a", "x"]] ∧
        List.Pairwise (· ≤ ·) ((applySort [["b", "xyz"], ["a", "x"]] [1, 0]).map
          (fun ins => (ins.getD 1 "").length))) :=
  ⟨⟨by decide, by decide⟩, C2_sorted_permutation _ _ ⟨by decide, by decide⟩⟩

/-! ### padding lemmas -/

theorem le_foldl_max (xs : List (List α)) (b : Nat) :
    b ≤ xs.foldl (fun a x => max a x.length) b := by
  induction xs generalizing b with
  | nil => exact Nat.le_refl b
  | cons y ys ih =>
    simp only [List.foldl_cons]
    exact le_trans (Nat.le_max_left b y.length) (ih (max b y.length))

theorem length_le_foldl_max (xs : List (List α)) (x : List α) (hx : x ∈ xs)
    (b : Nat) : x.length ≤ xs.foldl (fun a x => max a x.length) b := by
  induction xs generalizing b with
  | nil => cases hx
  | cons y ys ih =>
    simp only [List.foldl_cons]
    rcases List.mem_cons.mp hx with h | h
    · subst h
      exact le_trans (Nat.le_max_right b x.length) (le_foldl_max ys _)
    · exact ih h _

theorem length_le_maxLenOf (xs : List (List α)) (x : List α) (hx : x ∈ xs) :
    x.length ≤ maxLenOf xs :=
  length_le_foldl_max xs x hx 0

theorem getD_map_of_lt {f : α → β} (xs : List α) (i : Nat) (d : β) (d2 : α)
    (h : i < xs.length) :
    (xs.map f).getD i d = f (xs.getD i d2) := by
  simp [List.getD_eq_getElem?_getD, List.getElem?_eq_getElem, h,
    List.getElem?_map]

theorem getD_mem_of_lt (xs : List α) (i : Nat) (d : α) (h : i < xs.length) :
    xs.getD i d ∈ xs := by
  rw [List.getD_eq_getElem?_getD, List.getElem?_eq_getElem h]
  simp only [Option.getD_some]
  exact List.getElem_mem h

theorem prepare_data_getD (xs : List (List α)) (fill : α) (i : Nat)
    (h : i < xs.length) :
    (prepare_data xs fill).getD i [] =
      xs.getD i [] ++
        List.replicate (maxLenOf xs - (xs.getD i []).length) fill := by
  unfold prepare_data
  exact getD_map_of_lt xs i [] [] h

theorem prepare_data_getD_length (xs : List (List α)) (fill : α) (i : Nat)
    (h : i < xs.length) :
    ((prepare_data xs fill).getD i []).length = maxLenOf xs := by
  rw [prepare_data_getD xs fill i h]
  have hm : (xs.getD i []).length ≤ maxLenOf xs :=
    length_le_maxLenOf _ _ (getD_mem_of_lt xs i [] h)
  simp only [List.length_append, List.length_replicate]
  omega

theorem int32wrap_eq_self (v : Int) (h1 : -(2 ^ 31) ≤ v) (h2 : v < 2 ^ 31) :
    int32wrap v = v := by
  unfold int32wrap
  have e31 : (2 : Int) ^ 31 = 2147483648 := by norm_num
  have e32 : (2 : Int) ^ 32 = 4294967296 := by norm_num
  rw [e31] at h1 h2
  rw [e31, e32]
  rw [Int.emod_eq_of_lt (by omega) (by omega)]
  omega

/-! ### collate_fn structure lemmas -/

theorem collate_core_ok (cfg : Config) (samples : List Sample)
    (out : CollateOut) (h : collate_core cfg samples = Except.ok out) :
    out.text = (prepare_data (textsOf samples) 0).map (List.map int32wrap) ∧
    out.text_lenghts = (textsOf samples).map List.length ∧
    out.linear = transpose021 (stepLinear cfg samples) ∧
    out.mel = transpose021 (stepMel cfg samples) ∧
    out.item_idx = (samples.map Sample.item_idx).headD "" := by
  unfold collate_core at h
  split at h
  · cases h
    exact ⟨rfl, rfl, rfl, rfl, rfl⟩
  · simp at h

theorem collate_fn_ok_core (cfg : Config) (batch : List BatchItem)
    (samples : List Sample) (out : CollateOut)
    (hs : extractSamples batch = Except.ok samples)
    (hout : collate_fn cfg batch = Except.ok out) :
    collate_core cfg samples = Except.ok out := by
  cases batch with
  | nil => simp [collate_fn] at hout
  | cons b bs =>
    cases b with
    | other ty => simp [collate_fn] at hout
    | mapping s =>
      simp only [collate_fn, List.head?_cons] at hout
      rw [hs] at hout
      exact hout

theorem extractSamples_cons_mapping (s : Sample) (bs : List BatchItem)
    (samples : List Sample)
    (h : extractSamples (BatchItem.mapping s :: bs) = Except.ok samples) :
    ∃ ss, samples = s :: ss ∧ extractSamples bs = Except.ok ss := by
  unfold extractSamples at h
  cases h2 : extractSamples bs with
  | ok ss =>
    rw [h2] at h
    cases h
    exact ⟨ss, rfl, rfl⟩
  | error e =>
    rw [h2] at h
    simp at h

/-- Concrete configuration and batch used by witnesses. -/
def cfgW : Config :=
  { outputs_per_step := 5, num_freq := 3, num_mels := 2, hop_length := 4 }

def sW1 : Sample := { text := [1, 2], wav := [1, 2, 3], item_idx := "LJ001-0001" }

def sW2 : Sample :=
  { text := [1, 2, 3, 4], wav := [5, 6, 7, 8, 9, 10], item_idx := "LJ001-0002" }

def batchW : List BatchItem := [BatchItem.mapping sW1, BatchItem.mapping sW2]

def samplesW : List Sample := [sW1, sW2]

/-- C5: SequencePadder.pad returns a matrix of width the maximum length
over the inputs, each row the original sequence right-padded with the
fill value, and the original lengths; in the assembled batch the symbol
matrix rows are the transcripts right-padded with pad symbol 0 (for
int32-representable symbols, as produced upstream) and `text_lenghts`
holds the original transcript lengths. -/
theorem C5_padding (L : List (List Int)) (f : Int) (i : Nat)
    (hi : i < L.length)
    (cfg : Config) (batch : List BatchItem) (samples : List Sample)
    (out : CollateOut) (j : Nat) (hj : j < samples.length)
    (hs : extractSamples batch = Except.ok samples)
    (hout : collate_fn cfg batch = Except.ok out)
    (hrange : ∀ s ∈ samples, ∀ v ∈ s.text, -(2 ^ 31) ≤ v ∧ v < 2 ^ 31) :
    ((SequencePadder.pad L f).1.getD i []).length = maxLenOf L ∧
    (SequencePadder.pad L f).1.getD i [] =
      L.getD i [] ++ List.replicate (maxLenOf L - (L.getD i []).length) f ∧
    (SequencePadder.pad L f).2.getD i 0 = (L.getD i []).length ∧
    out.text_lenghts = (textsOf samples).map List.length ∧
    out.text.getD j [] = (textsOf samples).getD j [] ++
      List.replicate
        (maxLenOf (textsOf samples) - ((textsOf samples).getD j []).length)
        0 := by
  obtain ⟨htext, hlen, _, _, _⟩ :=
    collate_core_ok cfg samples out
      (collate_fn_ok_core cfg batch samples out hs hout)
  refine ⟨prepare_data_getD_length L f i hi, prepare_data_getD L f i hi,
    getD_map_of_lt L i 0 [] hi, hlen, ?_⟩
  rw [htext]
  have hjlen : j < (prepare_data (textsOf samples) 0).length := by
    simp [prepare_data, textsOf, hj]
  rw [getD_map_of_lt _ j [] [] hjlen,
    prepare_data_getD _ 0 j (by simp [textsOf, hj]),
    List.map_append, List.map_replicate,
    int32wrap_eq_self 0 (by norm_num) (by norm_num)]
  congr 1
  have hsj : (textsOf samples).getD j [] = (samples.getD j ⟨[], [], ""⟩).text :=
    getD_map_of_lt samples j [] ⟨[], [], ""⟩ hj
  rw [hsj]
  have hmem : samples.getD j ⟨[], [], ""⟩ ∈ samples :=
    getD_mem_of_lt samples j _ hj
  have hb := hrange _ hmem
  calc (samples.getD j ⟨[], [], ""⟩).text.map int32wrap
      = (samples.getD j ⟨[], [], ""⟩).text.map id :=
        List.map_congr_left
          (fun v hv => int32wrap_eq_self v (hb v hv).1 (hb v hv).2)
    _ = _ := List.map_id _

theorem C5_witness :
    ∃ out, collate_fn cfgW batchW = Except.ok out ∧
      (((SequencePadder.pad [[(1 : Int)], [2, 3]] 7).1.getD 0 []).length =
          maxLenOf [[(1 : Int)], [2, 3]] ∧
        (SequencePadder.pad [[(1 : Int)], [2, 3]] 7).1.getD 0 [] =
          ([[(1 : Int)], [2, 3]] : List (List Int)).getD 0 [] ++
            List.replicate
              (maxLenOf [[(1 : Int)], [2, 3]] -
                (([[(1 : Int)], [2, 3]] : List (List Int)).getD 0 []).length)
              7 ∧
        (SequencePadder.pad [[(1 : Int)], [2, 3]] 7).2.getD 0 0 =
          (([[(1 : Int)], [2, 3]] : List (List Int)).getD 0 []).length ∧
        out.text_lenghts = (textsOf samplesW).map List.length ∧
        out.text.getD 0 [] = (textsOf samplesW).getD 0 [] ++
          List.replicate
            (maxLenOf (textsOf samplesW) -
              ((textsOf samplesW).getD 0 []).length) 0) := by
  refine ⟨_, rfl, ?_⟩
  exact C5_padding [[(1 : Int)], [2, 3]] 7 0 (by decide) cfgW batchW samplesW _
    0 (by decide) rfl rfl (by decide)

/-! ### Spectral frontend shape agreement -/

theorem timeDim_spectrogram (cfg : Config) (w : List Rat)
    (hf : 1 ≤ cfg.num_freq) :
    timeDim (spectrogram cfg w) = numFrames cfg w.length := by
  obtain ⟨F, hF⟩ : ∃ F, cfg.num_freq = F + 1 := ⟨cfg.num_freq - 1, by omega⟩
  simp [timeDim, spectrogram, hF, List.range_succ_eq_map]

theorem timeDim_melspectrogram (cfg : Config) (w : List Rat)
    (hm : 1 ≤ cfg.num_mels) :
    timeDim (melspectrogram cfg w) = numFrames cfg w.length := by
  obtain ⟨M, hM⟩ : ∃ M, cfg.num_mels = M + 1 := ⟨cfg.num_mels - 1, by omega⟩
  simp [timeDim, melspectrogram, hM, List.range_succ_eq_map]

theorem shape2_mel_linear (cfg : Config) (hm : 1 ≤ cfg.num_mels)
    (hf : 1 ≤ cfg.num_freq) (ws : List (List Rat)) :
    shape2 (ws.map (melspectrogram cfg)) =
      shape2 (ws.map (spectrogram cfg)) := by
  cases ws with
  | nil => rfl
  | cons w ws =>
    simp only [shape2, List.map_cons, List.headD_cons]
    exact (timeDim_melspectrogram cfg w hm).trans
      (timeDim_spectrogram cfg w hf).symm

theorem extractSamples_error (batch : List BatchItem) (e : CollateError)
    (h : extractSamples batch = Except.error e) :
    ∃ ty, e = CollateError.typeError ty := by
  induction batch with
  | nil => simp [extractSamples] at h
  | cons b bs ih =>
    cases b with
    | mapping s =>
      unfold extractSamples at h
      cases h2 : extractSamples bs with
      | ok ss => rw [h2] at h; simp at h
      | error e2 => rw [h2] at h; cases h; exact ih h2
    | other ty =>
      unfold extractSamples at h
      cases h
      exact ⟨ty, rfl⟩

/-- C6: under one fixed configuration (with positive bin counts, as the
configuration loader guarantees), `spectrogram` and `melspectrogram`
yield identical time-dimension lengths for every waveform, so the
assertion in `collate_fn` comparing the stacked linear and mel arrays'
time dimensions never fails. -/
theorem C6_time_dims_agree (cfg : Config) (hm : 1 ≤ cfg.num_mels)
    (hf : 1 ≤ cfg.num_freq) :
    (∀ w : List Rat,
        timeDim (spectrogram cfg w) = timeDim (melspectrogram cfg w)) ∧
      ∀ batch,
        collate_fn cfg batch ≠ Except.error CollateError.assertionError := by
  constructor
  · intro w
    rw [timeDim_spectrogram cfg w hf, timeDim_melspectrogram cfg w hm]
  · intro batch
    cases batch with
    | nil => simp [collate_fn]
    | cons b bs =>
      cases b with
      | other ty => simp [collate_fn]
      | mapping s =>
        simp only [collate_fn, List.head?_cons]
        cases h2 : extractSamples (BatchItem.mapping s :: bs) with
        | error e =>
          obtain ⟨ty, rfl⟩ := extractSamples_error _ _ h2
          simp [h2]
        | ok samples =>
          simp only [h2]
          unfold collate_core
          rw [if_pos]
          · simp
          · exact shape2_mel_linear cfg hm hf (prepare_data (wavsOf samples) 0)

theorem C6_witness :
    (1 ≤ cfgW.num_mels ∧ 1 ≤ cfgW.num_freq) ∧
      ((∀ w : List Rat,
          timeDim (spectrogram cfgW w) = timeDim (melspectrogram cfgW w)) ∧
        ∀ batch,
          collate_fn cfgW batch ≠ Except.error CollateError.assertionError) :=
  ⟨⟨by decide, by decide⟩, C6_time_dims_agree cfgW (by decide) (by decide)⟩

/-! ### Step padding of the time axis -/

theorem prepare_data_cons (x : List α) (xs : List (List α)) (f : α) :
    prepare_data (x :: xs) f =
      (x ++ List.replicate (maxLenOf (x :: xs) - x.length) f) ::
        xs.map (fun y =>
          y ++ List.replicate (maxLenOf (x :: xs) - y.length) f) := by
  simp [prepare_data]

theorem timeDim3_out_linear (cfg : Config) (hf : 1 ≤ cfg.num_freq) (p : Nat)
    (w : List Rat) (ws : List (List Rat)) :
    timeDim3 (transpose021
        (pad_per_step ((w :: ws).map (spectrogram cfg)) p)) =
      numFrames cfg w.length + p := by
  obtain ⟨F, hF⟩ : ∃ F, cfg.num_freq = F + 1 := ⟨cfg.num_freq - 1, by omega⟩
  simp [timeDim3, transpose021, pad_per_step, transpose2d, spectrogram, hF,
    List.range_succ_eq_map]

theorem timeDim3_out_mel (cfg : Config) (hm : 1 ≤ cfg.num_mels) (p : Nat)
    (w : List Rat) (ws : List (List Rat)) :
    timeDim3 (transpose021
        (pad_per_step ((w :: ws).map (melspectrogram cfg)) p)) =
      numFrames cfg w.length + p := by
  obtain ⟨M, hM⟩ : ∃ M, cfg.num_mels = M + 1 := ⟨cfg.num_mels - 1, by omega⟩
  simp [timeDim3, transpose021, pad_per_step, transpose2d, melspectrogram, hM,
    List.range_succ_eq_map]

theorem shape2_mel_cons (cfg : Config) (hm : 1 ≤ cfg.num_mels) (w : List Rat)
    (ws : List (List Rat)) :
    shape2 ((w :: ws).map (melspectrogram cfg)) = numFrames cfg w.length := by
  simp only [shape2, List.map_cons, List.headD_cons]
  exact timeDim_melspectrogram cfg w hm

/-- C1: for every successfully assembled batch (with validated positive
configuration), the emitted spectrogram time dimension equals
`timesteps + pad_len`, is a multiple of `outputs_per_step`, exceeds the
common extracted frame count by at least one, and the pad length follows
the source formula: `extra + 1` when `(timesteps + 1) mod
outputs_per_step != 0` with `extra = outputs_per_step - ((timesteps + 1)
mod outputs_per_step)`, else `1`. -/
theorem C1_step_padding (cfg : Config) (batch : List BatchItem)
    (samples : List Sample) (out : CollateOut)
    (hr : 1 ≤ cfg.outputs_per_step) (hm : 1 ≤ cfg.num_mels)
    (hf : 1 ≤ cfg.num_freq)
    (hs : extractSamples batch = Except.ok samples)
    (hout : collate_fn cfg batch = Except.ok out) :
    timeDim3 out.linear = timestepsOf cfg samples + padLenOf cfg samples ∧
    timeDim3 out.mel = timeDim3 out.linear ∧
    timeDim3 out.linear % cfg.outputs_per_step = 0 ∧
    timestepsOf cfg samples + 1 ≤ timeDim3 out.linear ∧
    padLenOf cfg samples =
      (if (timestepsOf cfg samples + 1) % cfg.outputs_per_step ≠ 0 then
        cfg.outputs_per_step -
          (timestepsOf cfg samples + 1) % cfg.outputs_per_step + 1
      else 1) := by
  obtain ⟨_, _, hlin, hmel, _⟩ :=
    collate_core_ok cfg samples out
      (collate_fn_ok_core cfg batch samples out hs hout)
  have hbatch : ∃ s bs2, batch = BatchItem.mapping s :: bs2 := by
    cases batch with
    | nil => simp [collate_fn] at hout
    | cons b bs2 =>
      cases b with
      | other ty => simp [collate_fn] at hout
      | mapping s => exact ⟨s, bs2, rfl⟩
  obtain ⟨s, bs2, rfl⟩ := hbatch
  obtain ⟨ss, rfl, -⟩ := extractSamples_cons_mapping s bs2 samples hs
  have hPD : prepare_data (wavsOf (s :: ss)) 0 =
      (s.wav ++
          List.replicate (maxLenOf (wavsOf (s :: ss)) - s.wav.length) 0) ::
        (wavsOf ss).map (fun y =>
          y ++ List.replicate (maxLenOf (wavsOf (s :: ss)) - y.length) 0) :=
    prepare_data_cons s.wav (wavsOf ss) 0
  have hT : timestepsOf cfg (s :: ss) =
      numFrames cfg
        (s.wav ++
          List.replicate
            (maxLenOf (wavsOf (s :: ss)) - s.wav.length) 0).length := by
    show shape2 ((prepare_data (wavsOf (s :: ss)) 0).map (melspectrogram cfg))
        = _
    rw [hPD]
    exact shape2_mel_cons cfg hm _ _
  have hlin3 : timeDim3 out.linear =
      numFrames cfg
          (s.wav ++
            List.replicate
              (maxLenOf (wavsOf (s :: ss)) - s.wav.length) 0).length +
        padLenOf cfg (s :: ss) := by
    rw [hlin]
    show timeDim3 (transpose021
        (pad_per_step ((prepare_data (wavsOf (s :: ss)) 0).map
          (spectrogram cfg)) (padLenOf cfg (s :: ss)))) = _
    rw [hPD]
    exact timeDim3_out_linear cfg hf _ _ _
  have hmel3 : timeDim3 out.mel =
      numFrames cfg
          (s.wav ++
            List.replicate
              (maxLenOf (wavsOf (s :: ss)) - s.wav.length) 0).length +
        padLenOf cfg (s :: ss) := by
    rw [hmel]
    show timeDim3 (transpose021
        (pad_per_step ((prepare_data (wavsOf (s :: ss)) 0).map
          (melspectrogram cfg)) (padLenOf cfg (s :: ss)))) = _
    rw [hPD]
    exact timeDim3_out_mel cfg hm _ _ _
  refine ⟨by rw [hlin3, hT], by rw [hmel3, hlin3], ?_, ?_, rfl⟩
  · rw [hlin3, ← hT]
    exact padLenFn_mod cfg.outputs_per_step (timestepsOf cfg (s :: ss)) hr
  · have hp := padLenFn_pos cfg.outputs_per_step (timestepsOf cfg (s :: ss))
    rw [hlin3, ← hT]
    unfold padLenOf
    omega

theorem C1_witness :
    ∃ out, collate_fn cfgW batchW = Except.ok out ∧
      (timeDim3 out.linear =
          timestepsOf cfgW samplesW + padLenOf cfgW samplesW ∧
        timeDim3 out.mel = timeDim3 out.linear ∧
        timeDim3 out.linear % cfgW.outputs_per_step = 0 ∧
        timestepsOf cfgW samplesW + 1 ≤ timeDim3 out.linear ∧
        padLenOf cfgW samplesW =
          (if (timestepsOf cfgW samplesW + 1) % cfgW.outputs_per_step ≠ 0 then
            cfgW.outputs_per_step -
              (timestepsOf cfgW samplesW + 1) % cfgW.outputs_per_step + 1
          else 1)) :=
  ⟨_, rfl, C1_step_padding cfgW batchW samplesW _ (by decide) (by decide)
    (by decide) rfl rfl⟩

/-! ### Transposed output layout -/

theorem getD_range_of_lt (n i d : Nat) (h : i < n) :
    (List.range n).getD i d = i := by
  simp [List.getD_eq_getElem?_getD, List.getElem?_range, h]

theorem get3_transpose021 (x : List (List (List Rat))) (b t k : Nat)
    (hb : b < x.length) (hk : k < (x.getD b []).length)
    (ht : t < ((x.getD b []).headD []).length) :
    get3 (transpose021 x) b t k = get3 x b k t := by
  unfold get3 transpose021
  rw [getD_map_of_lt x b [] [] hb]
  unfold transpose2d
  rw [getD_map_of_lt (List.range ((x.getD b []).headD []).length) t [] 0
    (by simpa using ht)]
  rw [getD_range_of_lt _ _ _ ht]
  rw [getD_map_of_lt (x.getD b []) k 0 [] hk]

/-- C8: both spectrogram arrays emitted in the assembled batch are the
`transpose(0, 2, 1)` of the step-padded stacks — element `[b][t][k]` of
each output array equals element `[b][k][t]` of the corresponding
step-padded `[batch × bins × time]` array. -/
theorem C8_transpose_layout (cfg : Config) (batch : List BatchItem)
    (samples : List Sample) (out : CollateOut)
    (hs : extractSamples batch = Except.ok samples)
    (hout : collate_fn cfg batch = Except.ok out) :
    out.linear = transpose021 (stepLinear cfg samples) ∧
    out.mel = transpose021 (stepMel cfg samples) ∧
    (∀ b t k, b < (stepLinear cfg samples).length →
      k < ((stepLinear cfg samples).getD b []).length →
      t < (((stepLinear cfg samples).getD b []).headD []).length →
      get3 out.linear b t k = get3 (stepLinear cfg samples) b k t) ∧
    (∀ b t k, b < (stepMel cfg samples).length →
      k < ((stepMel cfg samples).getD b []).length →
      t < (((stepMel cfg samples).getD b []).headD []).length →
      get3 out.mel b t k = get3 (stepMel cfg samples) b k t) := by
  obtain ⟨_, _, hlin, hmel, _⟩ :=
    collate_core_ok cfg samples out
      (collate_fn_ok_core cfg batch samples out hs hout)
  refine ⟨hlin, hmel, ?_, ?_⟩
  · intro b t k hb hk ht
    rw [hlin]
    exact get3_transpose021 _ b t k hb hk ht
  · intro b t k hb hk ht
    rw [hmel]
    exact get3_transpose021 _ b t k hb hk ht

theorem C8_witness :
    ∃ out, collate_fn cfgW batchW = Except.ok out ∧
      (out.linear = transpose021 (stepLinear cfgW samplesW) ∧
        out.mel = transpose021 (stepMel cfgW samplesW) ∧
        (∀ b t k, b < (stepLinear cfgW samplesW).length →
          k < ((stepLinear cfgW samplesW).getD b []).length →
          t < (((stepLinear cfgW samplesW).getD b []).headD []).length →
          get3 out.linear b t k = get3 (stepLinear cfgW samplesW) b k t) ∧
        (∀ b t k, b < (stepMel cfgW samplesW).length →
          k < ((stepMel cfgW samplesW).getD b []).length →
          t < (((stepMel cfgW samplesW).getD b []).headD []).length →
          get3 out.mel b t k = get3 (stepMel cfgW samplesW) b k t)) :=
  ⟨_, rfl, C8_transpose_layout cfgW batchW samplesW _ rfl rfl⟩
